import Mathlib

/-!
Shallow embedding of the processing orchestrator of meet-recording-quiz-maker
(src/services/processing.ts), its record store (src/repositories, the
DriveFilesRepository variant used by the orchestrator), and the data model
(src/types.ts).  Collaborators (Drive, Gemini, Forms, the wall clock and
Math.random) are modelled as oracles supplied in an environment; the Firestore
document collection is a function from file ids to optional records; every
collaborator call and store write is logged in a trace so that claims about
"no calls" / "exactly one write" are expressible.
-/

namespace MeetQuiz

/-- `ProcessingStatus` from src/types.ts. -/
inductive ProcessingStatus where
  | pending
  | processing
  | succeeded
  | failed
deriving DecidableEq

/-- `ProcessingStep` from src/types.ts. -/
inductive ProcessingStep where
  | queued
  | metadata
  | transcript
  | quiz
  | form
  | done
  | error
deriving DecidableEq

/-- `ProcessingProgress` from src/types.ts (`message` and `percent` optional). -/
structure ProcessingProgress where
  step : ProcessingStep
  message : Option String
  percent : Option Nat
deriving DecidableEq

/-- `DriveFile` from src/types.ts: the persisted per-document record. -/
structure DriveFile where
  fileId : String
  title : Option String
  status : ProcessingStatus
  modifiedTime : Option String
  formId : Option String
  formUrl : Option String
  geminiSummary : Option String
  questionCount : Option Nat
  error : Option String
  progress : Option ProcessingProgress
  createdAt : String
  updatedAt : String
deriving DecidableEq

/-- `QuizQuestion` from src/types.ts.  `correctOptionIndex` is a JS number that
may come of range from the generator, so it is modelled as an integer. -/
structure QuizQuestion where
  question : String
  options : List String
  correctOptionIndex : Int
  rationale : Option String
deriving DecidableEq

/-- `QuizPayload` from src/types.ts. -/
structure QuizPayload where
  title : String
  summary : String
  questions : List QuizQuestion
deriving DecidableEq

/-- `DriveFileMetadata` from src/clients/drive.ts (the fields the orchestrator
reads; `mimeType` and `properties` are never consulted by it). -/
structure DriveFileMetadata where
  id : String
  name : Option String
  modifiedTime : Option String
deriving DecidableEq

/-- `CreateFormResult` from src/clients/forms.ts. -/
structure CreateFormResult where
  formId : String
  formUrl : String
deriving DecidableEq

/-- The slice of `AppConfig` (src/config.ts) the processing service reads. -/
structure AppConfig where
  googleDriveFolderId : Option String
  quizAdditionalPrompt : Option String

/-- JS falsiness of an optional string field: `undefined` and `""` are falsy. -/
def tsFalsyStr : Option String → Bool
  | none => true
  | some s => s = ""

/-! ## Record store (DriveFilesRepository) -/

/-- One field of a Firestore merge-set payload: absent key (`keep`),
`FieldValue.delete()` (`delete`), or a concrete value (`set`). -/
inductive FieldOp (α : Type) where
  | keep
  | delete
  | set (a : α)
deriving DecidableEq

/-- The `DriveFileUpdate` payload type of `DriveFilesRepository.setStatus`
(every mutable field of `DriveFile` may be kept, deleted or set). -/
structure DriveFileUpdate where
  title : FieldOp String := .keep
  modifiedTime : FieldOp String := .keep
  formId : FieldOp String := .keep
  formUrl : FieldOp String := .keep
  geminiSummary : FieldOp String := .keep
  questionCount : FieldOp Nat := .keep
  error : FieldOp String := .keep
  progress : FieldOp ProcessingProgress := .keep
  createdAt : FieldOp String := .keep
deriving DecidableEq

/-- Merge one field: an absent key leaves the stored value, `delete` removes
it, `set` overwrites it. -/
def applyField (old : Option α) : FieldOp α → Option α
  | .keep => old
  | .delete => none
  | .set a => some a

/-- `typeof payload.createdAt === "string" ? payload.createdAt : now` from
`DriveFilesRepository.setStatus`. -/
def resolveCreatedAt (p : DriveFileUpdate) (now : String) : String :=
  match p.createdAt with
  | .set s => s
  | _ => now

/-- The Firestore document collection, keyed by file id. -/
def Store : Type := String → Option DriveFile

/-- The merged document produced by one `setStatus(fileId, status, payload)`
call: `set({ fileId, status, ...payload, createdAt, updatedAt: now },
{ merge: true })`.  The explicit `createdAt` / `updatedAt` keys come after the
payload spread, so they override whatever the payload said for them. -/
def mergeRecord (old : Option DriveFile) (now fileId : String)
    (status : ProcessingStatus) (p : DriveFileUpdate) : DriveFile :=
  { fileId := fileId
    status := status
    title := applyField (old.bind (·.title)) p.title
    modifiedTime := applyField (old.bind (·.modifiedTime)) p.modifiedTime
    formId := applyField (old.bind (·.formId)) p.formId
    formUrl := applyField (old.bind (·.formUrl)) p.formUrl
    geminiSummary := applyField (old.bind (·.geminiSummary)) p.geminiSummary
    questionCount := applyField (old.bind (·.questionCount)) p.questionCount
    error := applyField (old.bind (·.error)) p.error
    progress := applyField (old.bind (·.progress)) p.progress
    createdAt := resolveCreatedAt p now
    updatedAt := now }

/-- `DriveFilesRepository.setStatus` (src/repositories, lines 79-98 of the
concatenated file): a merge-set of the document for `fileId`. -/
def setStatus (store : Store) (now fileId : String) (status : ProcessingStatus)
    (p : DriveFileUpdate) : Store :=
  fun k => if k = fileId then some (mergeRecord (store fileId) now fileId status p) else store k

/-! ## Effects: call trace, mutable world, collaborator oracles -/

/-- One observable effect of the processing service: a store read or write, or
a call to one of the external collaborators. -/
inductive CallEvent where
  | storeGet (fileId : String)
  | storeSet (fileId : String) (status : ProcessingStatus)
  | listFiles (folderId : String)
  | getMetadata (fileId : String)
  | logCaller
  | exportText (fileId : String)
  | generateQuiz
  | createForm
deriving DecidableEq

/-- The mutable world threaded through the service: the Firestore collection,
the trace of effects so far, and a write counter indexing the wall clock. -/
structure St where
  store : Store
  calls : List CallEvent
  writes : Nat

/-- Append one event to the trace. -/
def St.logCall (st : St) (ev : CallEvent) : St :=
  { st with calls := st.calls ++ [ev] }

/-- The collaborators, as deterministic oracles.  `clock n` is the ISO string
`new Date().toISOString()` of the `n`-th store write; `rnd q i` models the
`Math.floor(Math.random() * (i + 1))` draw of shuffle step `i` for question
`q` (one independent stream per question models the shared global stream,
since all combinations of draws are reachable). -/
structure Env where
  clock : Nat → String
  getFileMetadata : String → Except String DriveFileMetadata
  exportDocumentText : String → Except String String
  generateQuiz : String → String → Nat → Option String → Except String QuizPayload
  createQuizForm : QuizPayload → Except String CreateFormResult
  listFolderFiles : String → Except String (List DriveFileMetadata)
  rnd : Nat → Nat → Nat

/-- `this.repo.get(fileId)` with its trace entry. -/
def repoGet (st : St) (fileId : String) : Option DriveFile × St :=
  (st.store fileId, st.logCall (.storeGet fileId))

/-- `this.repo.setStatus(fileId, status, payload)` with its trace entry; the
write consumes one clock tick. -/
def repoSetStatus (env : Env) (st : St) (fileId : String)
    (status : ProcessingStatus) (p : DriveFileUpdate) : St :=
  { store := setStatus st.store (env.clock st.writes) fileId status p
    calls := st.calls ++ [.storeSet fileId status]
    writes := st.writes + 1 }

/-! ## Answer randomizer (`ProcessingService.shuffleQuizOptions`) -/

/-- The `{ value, originalIndex }` decoration built by `shuffleQuizOptions`. -/
structure IndexedOption where
  value : String
  originalIndex : Nat
deriving DecidableEq

/-- One in-place swap `[l[i], l[j]] = [l[j], l[i]]` on a list (identity when
either index is out of range, which the shuffle loop never produces). -/
def swapL (l : List α) (i j : Nat) : List α :=
  match l[i]?, l[j]? with
  | some a, some b => (l.set i b).set j a
  | _, _ => l

/-- The Fisher-Yates loop `for (let i = len-1; i > 0; i--) swap(i, j)` with the
draw for step `i` given by `rnd i % (i + 1)` — the faithful range of
`Math.floor(Math.random() * (i + 1))`. -/
def fisherYatesAux (rnd : Nat → Nat) : Nat → List α → List α
  | 0, l => l
  | i + 1, l => fisherYatesAux rnd i (swapL l (i + 1) (rnd (i + 1) % (i + 2)))

/-- `Math.max(0, Math.min(question.options.length - 1,
question.correctOptionIndex))` (line 224-227). -/
def safeIndex (q : QuizQuestion) : Int :=
  max 0 (min ((q.options.length : Int) - 1) q.correctOptionIndex)

/-- `question.options.map((value, index) => ({ value, originalIndex: index }))`
(lines 228-231). -/
def decorate (options : List String) : List IndexedOption :=
  options.enum.map fun p => ⟨p.2, p.1⟩

/-- The decorated option list after the Fisher-Yates loop (lines 232-235). -/
def shuffledOptions (rnd : Nat → Nat) (q : QuizQuestion) : List IndexedOption :=
  fisherYatesAux rnd ((decorate q.options).length - 1) (decorate q.options)

/-- The per-question body of `ProcessingService.shuffleQuizOptions`
(src/services/processing.ts lines 223-243).  TS `findIndex`'s `-1` sentinel is
modelled by `List.findIdx` returning the length when nothing matches, so
`newCorrectIndex >= 0 ? newCorrectIndex : 0` becomes a bounds test. -/
def shuffleQuestion (rnd : Nat → Nat) (q : QuizQuestion) : QuizQuestion :=
  let shuffled := shuffledOptions rnd q
  let newCorrectIndex :=
    shuffled.findIdx fun o => o.originalIndex == (safeIndex q).toNat
  { q with
    options := shuffled.map (·.value)
    correctOptionIndex :=
      if newCorrectIndex < shuffled.length then (newCorrectIndex : Int) else 0 }

/-- `ProcessingService.shuffleQuizOptions` (lines 220-246): shuffle every
question, keeping the rest of the payload. -/
def shuffleQuizOptions (rnd : Nat → Nat → Nat) (quiz : QuizPayload) : QuizPayload :=
  { quiz with
    questions := quiz.questions.enum.map fun p => shuffleQuestion (rnd p.1) p.2 }

/-! ## Processing orchestrator (`ProcessingService`) -/

/-- Result of `processFile` / `enqueueProcessing`: the returned record or the
re-raised exception message, plus the final world. -/
structure ProcOut where
  out : Except String DriveFile
  st : St

/-- `error instanceof Error && error.message ? error.message : "Processing
failed"`: an exception with an empty message falls back to a default. -/
def fallbackMessage (e : String) : String :=
  if e = "" then "Processing failed" else e

/-- A metadata field that may be `undefined` in the TS payload object: an
undefined-valued key is not written by the store, i.e. it is kept. -/
def FieldOp.ofOption : Option α → FieldOp α
  | some a => .set a
  | none => .keep

/-- The attempt-start payload shared by `processFile` (lines 129-139) and
`enqueueProcessing` (lines 81-91): delete the six prior-attempt fields
`title`, `modifiedTime`, `formId`, `formUrl`, `geminiSummary`, `error`, and
set the fresh `progress` and `questionCount`. -/
def clearingPayload (progress : ProcessingProgress) (questionCount : Nat) :
    DriveFileUpdate :=
  { title := .delete
    modifiedTime := .delete
    formId := .delete
    formUrl := .delete
    geminiSummary := .delete
    error := .delete
    progress := .set progress
    questionCount := .set questionCount }

/-- `ProcessingService.updateProgress` (lines 248-256). -/
def updateProgress (env : Env) (st : St) (fileId : String)
    (step : ProcessingStep) (message : String) (percent : Nat) : St :=
  repoSetStatus env st fileId .processing
    { progress := .set ⟨step, some message, some percent⟩ }

/-- The `try` block of `ProcessingService.processFile` from `const title =`
onwards (lines 143-199), given the already-resolved metadata: the metadata
write, transcript export, quiz generation, shuffle, form creation, the final
success write, and the re-read (the `repo.get` of line 194 is inlined: the
read result together with its trace entry). -/
def pipelineBody (cfg : AppConfig) (env : Env) (st1 : St) (fileId : String)
    (meta : DriveFileMetadata) (questionCount : Nat) :
    Except String DriveFile × St :=
  let title := meta.name.getD ("Meeting " ++ fileId)
  let st2 := repoSetStatus env st1 fileId .processing
    { title := .set title
      modifiedTime := FieldOp.ofOption meta.modifiedTime
      questionCount := .set questionCount
      progress := .set ⟨.metadata, some "Metadata fetched", some 10⟩ }
  let st3 := (st2.logCall .logCaller).logCall (.exportText fileId)
  match env.exportDocumentText fileId with
  | .error e => (.error e, st3)
  | .ok _transcript =>
    let st4 := updateProgress env st3 fileId .transcript "Transcript fetched" 40
    let st5 := st4.logCall .generateQuiz
    match env.generateQuiz title _transcript questionCount cfg.quizAdditionalPrompt with
    | .error e => (.error e, st5)
    | .ok quizPayload =>
      let st6 := updateProgress env st5 fileId .quiz "Quiz generated" 70
      let randomizedQuiz := shuffleQuizOptions env.rnd quizPayload
      let st7 := st6.logCall .createForm
      match env.createQuizForm randomizedQuiz with
      | .error e => (.error e, st7)
      | .ok form =>
        let st8 := updateProgress env st7 fileId .form "Form created" 90
        let st9 := repoSetStatus env st8 fileId .succeeded
          { title := .set title
            modifiedTime := FieldOp.ofOption meta.modifiedTime
            formId := .set form.formId
            formUrl := .set form.formUrl
            geminiSummary := .set quizPayload.summary
            questionCount := .set quizPayload.questions.length
            progress := .set ⟨.done, some "Completed", some 100⟩ }
        let st10 := st9.logCall (.storeGet fileId)
        match st9.store fileId with
        | none => (.error "Failed to read record after processing", st10)
        | some record => (.ok record, st10)

/-- The whole `try` block (lines 141-199): `const meta = metadata ??
(await this.drive.getFileMetadata(fileId))`, then the body. -/
def runPipeline (cfg : AppConfig) (env : Env) (st0 : St) (fileId : String)
    (metadata : Option DriveFileMetadata) (questionCount : Nat) :
    Except String DriveFile × St :=
  match metadata with
  | some m => pipelineBody cfg env st0 fileId m questionCount
  | none =>
    match env.getFileMetadata fileId with
    | .error e => (.error e, st0.logCall (.getMetadata fileId))
    | .ok m => pipelineBody cfg env (st0.logCall (.getMetadata fileId)) fileId m questionCount

/-- `ProcessingService.processFile` after the short-circuit check: the
attempt-start clearing write (lines 129-139), the `try` body, and the `catch`
handler (lines 200-208) that records the failure once and re-raises. -/
def processFileRun (cfg : AppConfig) (env : Env) (st0 : St) (fileId : String)
    (metadata : Option DriveFileMetadata) (questionCount : Nat) : ProcOut :=
  let st1 := repoSetStatus env st0 fileId .processing
    (clearingPayload ⟨.metadata, some "Fetching metadata", some 5⟩ questionCount)
  match runPipeline cfg env st1 fileId metadata questionCount with
  | (.ok record, st2) => { out := .ok record, st := st2 }
  | (.error e, st2) =>
    let message := fallbackMessage e
    let st3 := repoSetStatus env st2 fileId .failed
      { error := .set message
        progress := .set ⟨.error, some message, some 100⟩ }
    { out := .error e, st := st3 }

/-- `ProcessingService.processFile` (lines 109-209).  Defaults at call sites:
`force = false`, `metadata = none`, `questionCount = 10`. -/
def processFile (cfg : AppConfig) (env : Env) (st : St) (fileId : String)
    (force : Bool) (metadata : Option DriveFileMetadata) (questionCount : Nat) :
    ProcOut :=
  match repoGet st fileId with
  | (some existing, st0) =>
    if existing.status = ProcessingStatus.succeeded ∧ force = false then
      { out := .ok existing, st := st0 }
    else processFileRun cfg env st0 fileId metadata questionCount
  | (none, st0) => processFileRun cfg env st0 fileId metadata questionCount

/-- The synchronous part of `ProcessingService.enqueueProcessing` (lines
70-107): short-circuit, the queued clearing write, and the re-read that is
returned.  The detached `processFile` continuation runs after this returns
(single-threaded event loop) and is modelled by `processFile` itself. -/
def enqueueProcessing (env : Env) (st : St) (fileId : String)
    (force : Bool) (questionCount : Nat) : ProcOut :=
  match repoGet st fileId with
  | (some existing, st0) =>
    if existing.status = ProcessingStatus.succeeded ∧ force = false then
      { out := .ok existing, st := st0 }
    else
      let st1 := repoSetStatus env st0 fileId .processing
        (clearingPayload ⟨.queued, some "Queued for processing", some 0⟩ questionCount)
      match repoGet st1 fileId with
      | (none, st2) => { out := .error "Failed to enqueue processing", st := st2 }
      | (some record, st2) => { out := .ok record, st := st2 }
  | (none, st0) =>
    let st1 := repoSetStatus env st0 fileId .processing
      (clearingPayload ⟨.queued, some "Queued for processing", some 0⟩ questionCount)
    match repoGet st1 fileId with
    | (none, st2) => { out := .error "Failed to enqueue processing", st := st2 }
    | (some record, st2) => { out := .ok record, st := st2 }

/-- `ProcessingService.getStatus` (lines 211-213). -/
def getStatus (st : St) (fileId : String) : Option DriveFile × St :=
  repoGet st fileId

/-! ## Folder scanner (`ProcessingService.scanFolder`) -/

/-- `ProcessingService.hasMetadataChanged` (lines 215-218): if either marker
is missing (or empty, which is falsy in JS) the function reports *no* change;
otherwise it compares the two markers. -/
def hasMetadataChanged (existing : DriveFile) (meta : DriveFileMetadata) : Bool :=
  if tsFalsyStr existing.modifiedTime || tsFalsyStr meta.modifiedTime then false
  else existing.modifiedTime != meta.modifiedTime

/-- Scan counters. -/
structure ScanSummary where
  processed : Nat
  skipped : Nat
  errors : Nat
deriving DecidableEq

/-- Accumulator of the scan loop. -/
structure ScanAcc where
  processed : Nat
  skipped : Nat
  errors : Nat
  st : St

/-- One iteration of the scan loop (lines 45-63): per-document try/catch with
the unchanged-skip check.  `processFile` is called with `force = false`,
`metadata = file`, default `questionCount = 10`; its exception is caught and
counted. -/
def scanStep (cfg : AppConfig) (env : Env) (acc : ScanAcc)
    (file : DriveFileMetadata) : ScanAcc :=
  let existing := acc.st.store file.id
  let st0 := acc.st.logCall (.storeGet file.id)
  let unchanged : Bool :=
    match existing with
    | some r => r.status == ProcessingStatus.succeeded && !hasMetadataChanged r file
    | none => false
  if unchanged then { acc with skipped := acc.skipped + 1, st := st0 }
  else
    match processFile cfg env st0 file.id false (some file) 10 with
    | { out := .ok _, st } => { acc with processed := acc.processed + 1, st := st }
    | { out := .error _, st } => { acc with errors := acc.errors + 1, st := st }

/-- `ProcessingService.scanFolder` (lines 33-68). -/
def scanFolder (cfg : AppConfig) (env : Env) (st : St) :
    Except String (ScanSummary × St) :=
  match cfg.googleDriveFolderId with
  | none => .error "GOOGLE_DRIVE_FOLDER_ID is required for folder scanning"
  | some folderId =>
    if folderId = "" then .error "GOOGLE_DRIVE_FOLDER_ID is required for folder scanning"
    else
      match env.listFolderFiles folderId with
      | .error e => .error e
      | .ok files =>
        let acc := files.foldl (scanStep cfg env)
          ⟨0, 0, 0, st.logCall (.listFiles folderId)⟩
        .ok (⟨acc.processed, acc.skipped, acc.errors⟩, acc.st)

/-- Project the counters out of a scan result (used to state counterexamples
without binders). -/
def scanCounts (r : Except String (ScanSummary × St)) : Option ScanSummary :=
  match r with
  | .ok (s, _) => some s
  | .error _ => none

/-- Classifier for failure writes in the trace. -/
def isFailedSet : CallEvent → Bool
  | .storeSet _ .failed => true
  | _ => false

/-! ## Concrete fixtures (used by witnesses and counterexamples) -/

/-- A wall clock whose `n`-th tick is the string `tick n`. -/
def tClock : Nat → String := fun n => "tick " ++ toString n

/-- The empty collection. -/
def emptyStore : Store := fun _ => none

/-- A world with an empty collection and empty trace. -/
def emptySt : St := ⟨emptyStore, [], 0⟩

/-- A three-option question fixture with an in-range correct index. -/
def wQ1 : QuizQuestion := ⟨"Q1", ["alpha", "beta", "gamma"], 1, none⟩

/-- A question fixture with an out-of-range correct index. -/
def wBadQ : QuizQuestion := ⟨"Q2", ["yes", "no"], 5, none⟩

/-- A three-option quiz fixture. -/
def wQuiz : QuizPayload := ⟨"Standup Quiz", "A short summary", [wQ1]⟩

/-- Source metadata fixture for document `f1`. -/
def wMeta : DriveFileMetadata := ⟨"f1", some "Standup", some "mark-1"⟩

/-- Published-form fixture. -/
def wForm : CreateFormResult := ⟨"form-1", "https://forms.example/1"⟩

/-- An environment whose collaborators all succeed. -/
def okEnv : Env :=
  { clock := tClock
    getFileMetadata := fun fid => .ok ⟨fid, some "Standup", some "mark-1"⟩
    exportDocumentText := fun _ => .ok "Alice discussed the release."
    generateQuiz := fun _ _ _ _ => .ok wQuiz
    createQuizForm := fun _ => .ok wForm
    listFolderFiles := fun _ => .ok [wMeta]
    rnd := fun _ _ => 0 }

/-- Like `okEnv` but the transcript export throws `boom`. -/
def failEnv : Env := { okEnv with exportDocumentText := fun _ => .error "boom" }

/-- Config fixture with a folder configured and no extra prompt. -/
def cfg0 : AppConfig := ⟨some "folder-1", none⟩

/-- A fully succeeded record for document `f1`, markers matching `wMeta`. -/
def sRec : DriveFile :=
  { fileId := "f1"
    title := some "Standup"
    status := .succeeded
    modifiedTime := some "mark-1"
    formId := some "form-0"
    formUrl := some "https://forms.example/0"
    geminiSummary := some "old summary"
    questionCount := some 3
    error := none
    progress := some ⟨.done, some "Completed", some 100⟩
    createdAt := "c0"
    updatedAt := "u0" }

/-- A collection holding only `sRec`. -/
def sStore : Store := fun k => if k = "f1" then some sRec else none

/-- A world holding only `sRec`. -/
def sSt : St := ⟨sStore, [], 0⟩

/-- Like `sRec` but with no stored version marker. -/
def nmRec : DriveFile := { sRec with modifiedTime := none }

/-- A world holding only `nmRec`. -/
def nmSt : St := ⟨fun k => if k = "f1" then some nmRec else none, [], 0⟩

/-- First write of the C3 counterexample: fresh record at time `tick 0`. -/
def c3Store1 : Store :=
  setStatus emptyStore "tick 0" "doc" .processing {}

/-- Second write of the C3 counterexample at time `tick 1`, empty payload. -/
def c3Store2 : Store :=
  setStatus c3Store1 "tick 1" "doc" .processing {}

/-! # Theorems -/

/-! ## Record store lemmas -/

@[simp] theorem setStatus_apply_same (store : Store) (now fileId : String)
    (status : ProcessingStatus) (p : DriveFileUpdate) :
    setStatus store now fileId status p fileId
      = some (mergeRecord (store fileId) now fileId status p) := by
  simp [setStatus]

theorem setStatus_apply_other (store : Store) (now fileId k : String)
    (status : ProcessingStatus) (p : DriveFileUpdate) (hk : k ≠ fileId) :
    setStatus store now fileId status p k = store k := by
  simp [setStatus, hk]

@[simp] theorem logCall_store (st : St) (ev : CallEvent) :
    (st.logCall ev).store = st.store := rfl

@[simp] theorem logCall_calls (st : St) (ev : CallEvent) :
    (st.logCall ev).calls = st.calls ++ [ev] := rfl

@[simp] theorem logCall_writes (st : St) (ev : CallEvent) :
    (st.logCall ev).writes = st.writes := rfl

@[simp] theorem repoSetStatus_store (env : Env) (st : St) (fileId : String)
    (status : ProcessingStatus) (p : DriveFileUpdate) :
    (repoSetStatus env st fileId status p).store
      = setStatus st.store (env.clock st.writes) fileId status p := rfl

@[simp] theorem repoSetStatus_calls (env : Env) (st : St) (fileId : String)
    (status : ProcessingStatus) (p : DriveFileUpdate) :
    (repoSetStatus env st fileId status p).calls
      = st.calls ++ [.storeSet fileId status] := rfl

@[simp] theorem repoSetStatus_writes (env : Env) (st : St) (fileId : String)
    (status : ProcessingStatus) (p : DriveFileUpdate) :
    (repoSetStatus env st fileId status p).writes = st.writes + 1 := rfl

/-! ## Permutation lemmas for the Fisher-Yates shuffle -/

/-- Replacing the element at position `j` by `a` and moving the old element
`b` to the front permutes `a :: l`. -/
theorem perm_cons_set (a : α) (l : List α) :
    ∀ (j : Nat) (b : α), l[j]? = some b → List.Perm (a :: l) (b :: l.set j a) := by
  induction l with
  | nil => intro j b h; simp at h
  | cons c t ih =>
    intro j b h
    cases j with
    | zero =>
      simp only [List.getElem?_cons_zero, Option.some.injEq] at h
      subst h
      simpa using List.Perm.swap c a t
    | succ j =>
      have hb : t[j]? = some b := by simpa using h
      have s1 : List.Perm (a :: c :: t) (c :: a :: t) := List.Perm.swap c a t
      have s2 : List.Perm (c :: a :: t) (c :: b :: t.set j a) :=
        List.Perm.cons c (ih j b hb)
      have s3 : List.Perm (c :: b :: t.set j a) (b :: c :: t.set j a) :=
        List.Perm.swap b c _
      simpa using (s1.trans s2).trans s3

/-- A single swap is a permutation. -/
theorem swapL_perm (l : List α) (i j : Nat) : List.Perm (swapL l i j) l := by
  rcases hi : l[i]? with _ | a
  · rcases hj : l[j]? with _ | b <;> simp [swapL, hi, hj]
  · rcases hj : l[j]? with _ | b
    · simp [swapL, hi, hj]
    · simp only [swapL, hi, hj]
      have hilen : i < l.length := by
        rcases List.getElem?_eq_some.mp hi with ⟨h, _⟩
        exact h
      have hsetj : (l.set i b)[j]? = some b := by
        by_cases hij : i = j
        · subst hij
          simpa using @List.getElem?_set_self _ l i b hilen
        · rw [List.getElem?_set_ne hij]
          exact hj
      have h1 : List.Perm (a :: l.set i b) (b :: (l.set i b).set j a) :=
        perm_cons_set a (l.set i b) j b hsetj
      have h2 : List.Perm (b :: l) (a :: l.set i b) :=
        perm_cons_set b l i a hi
      exact ((h2.trans h1).cons_inv).symm

/-- The whole Fisher-Yates loop is a permutation, whatever the draws. -/
theorem fisherYatesAux_perm (rnd : Nat → Nat) :
    ∀ (i : Nat) (l : List α), List.Perm (fisherYatesAux rnd i l) l
  | 0, l => List.Perm.refl l
  | i + 1, l =>
    (fisherYatesAux_perm rnd i _).trans (swapL_perm l (i + 1) (rnd (i + 1) % (i + 2)))

/-! ## Shuffle specification -/

theorem decorate_map_value (options : List String) :
    (decorate options).map (·.value) = options := by
  simp only [decorate, List.map_map]
  have : ((fun o : IndexedOption => o.value) ∘ fun p : Nat × String => IndexedOption.mk p.2 p.1)
      = Prod.snd := rfl
  rw [this, List.enum_eq_enumFrom, List.enumFrom_map_snd]

theorem decorate_length (options : List String) :
    (decorate options).length = options.length := by
  simp [decorate, List.enum_eq_enumFrom]

theorem mem_decorate {options : List String} {o : IndexedOption} :
    o ∈ decorate options ↔ options[o.originalIndex]? = some o.value := by
  constructor
  · intro h
    rcases List.mem_map.mp h with ⟨pr, hpr, heq⟩
    have h1 := List.mem_enum_iff_getElem?.mp hpr
    cases heq
    simpa using h1
  · intro h
    refine List.mem_map.mpr ⟨(o.originalIndex, o.value), ?_, rfl⟩
    exact List.mem_enum_iff_getElem?.mpr h

theorem shuffledOptions_perm (rnd : Nat → Nat) (q : QuizQuestion) :
    List.Perm (shuffledOptions rnd q) (decorate q.options) :=
  fisherYatesAux_perm rnd _ _

theorem shuffledOptions_length (rnd : Nat → Nat) (q : QuizQuestion) :
    (shuffledOptions rnd q).length = q.options.length :=
  ((shuffledOptions_perm rnd q).length_eq).trans (decorate_length q.options)

theorem safeIndex_nonneg (q : QuizQuestion) : 0 ≤ safeIndex q :=
  le_max_left _ _

theorem safeIndex_lt (q : QuizQuestion) (h : q.options ≠ []) :
    (safeIndex q).toNat < q.options.length := by
  have hn : 0 < q.options.length := List.length_pos.mpr h
  have h1 : safeIndex q ≤ (q.options.length : Int) - 1 := by
    apply max_le
    · omega
    · exact min_le_left _ _
  omega

/-- Core randomizer lemma: for a non-empty option list the output options are
a permutation of the input, the new correct index is in bounds, and the option
there is the input option at the clamped input index. -/
theorem shuffleQuestion_spec (rnd : Nat → Nat) (q : QuizQuestion)
    (h : q.options ≠ []) :
    List.Perm (shuffleQuestion rnd q).options q.options ∧
    (shuffleQuestion rnd q).options.length = q.options.length ∧
    0 ≤ (shuffleQuestion rnd q).correctOptionIndex ∧
    (shuffleQuestion rnd q).correctOptionIndex < (q.options.length : Int) ∧
    ((shuffleQuestion rnd q).options)[(shuffleQuestion rnd q).correctOptionIndex.toNat]?
      = q.options[(safeIndex q).toNat]? := by
  have hperm := shuffledOptions_perm rnd q
  have hslen := shuffledOptions_length rnd q
  have hsafelt := safeIndex_lt q h
  -- the decorated safe option and its membership in the shuffled list
  obtain ⟨v, hv⟩ : ∃ v, q.options[(safeIndex q).toNat]? = some v :=
    ⟨_, List.getElem?_eq_getElem hsafelt⟩
  have hmem : (⟨v, (safeIndex q).toNat⟩ : IndexedOption) ∈ shuffledOptions rnd q := by
    apply hperm.mem_iff.mpr
    exact mem_decorate.mpr (by simpa using hv)
  -- findIdx finds a matching element
  have hex : ∃ x ∈ shuffledOptions rnd q,
      (fun o : IndexedOption => o.originalIndex == (safeIndex q).toNat) x = true :=
    ⟨_, hmem, by simp⟩
  have hfi := List.findIdx_lt_length_of_exists hex
  set fi := (shuffledOptions rnd q).findIdx
    (fun o : IndexedOption => o.originalIndex == (safeIndex q).toNat) with hfidef
  obtain ⟨x, hxget⟩ : ∃ x, (shuffledOptions rnd q)[fi]? = some x :=
    ⟨_, List.getElem?_eq_getElem hfi⟩
  have hpx := List.findIdx_of_getElem?_eq_some (hfidef ▸ hxget)
  have hfound : x.originalIndex = (safeIndex q).toNat := by simpa using hpx
  have hfoundval : x.value = v := by
    have hmem2 : x ∈ decorate q.options :=
      hperm.mem_iff.mp (List.getElem?_mem hxget)
    have h2 := mem_decorate.mp hmem2
    rw [hfound] at h2
    rw [hv] at h2
    exact (Option.some.inj h2).symm
  -- unfold the result record
  have hopts : (shuffleQuestion rnd q).options = (shuffledOptions rnd q).map (·.value) := rfl
  have hcidx : (shuffleQuestion rnd q).correctOptionIndex = (fi : Int) := by
    simp only [shuffleQuestion, ← hfidef]
    rw [if_pos hfi]
  refine ⟨?_, ?_, ?_, ?_, ?_⟩
  · rw [hopts]
    have hp := hperm.map (fun o : IndexedOption => o.value)
    rw [decorate_map_value] at hp
    exact hp
  · rw [hopts]
    simpa using hslen
  · rw [hcidx]; exact Int.natCast_nonneg fi
  · rw [hcidx]
    have : fi < q.options.length := hslen ▸ hfi
    exact_mod_cast this
  · rw [hopts, hcidx]
    have htonat : ((fi : Int)).toNat = fi := Int.toNat_natCast fi
    rw [htonat, List.getElem?_map, hxget]
    simp [hfoundval, hv]

theorem shuffleQuizOptions_questions_getElem? (rnd : Nat → Nat → Nat)
    (quiz : QuizPayload) (i : Nat) :
    (shuffleQuizOptions rnd quiz).questions[i]?
      = (quiz.questions[i]?).map (shuffleQuestion (rnd i)) := by
  simp only [shuffleQuizOptions, List.enum_eq_enumFrom, List.getElem?_map,
    List.getElem?_enumFrom, Nat.zero_add, Option.map_map]
  rfl

/-! ## Claims C4 and C5: the answer randomizer -/

/-- C4: for every quiz and every question in it whose options list is
non-empty and whose `correctOptionIndex` is in range, the randomizer returns a
question whose options are a permutation of the input options (same length, no
duplicated or dropped options), and the option string at the output
`correctOptionIndex` equals the option string at the input
`correctOptionIndex`. -/
theorem claim_C4_shuffle_permutation_preserves_answer
    (rnd : Nat → Nat → Nat) (quiz : QuizPayload) (i : Nat) (q : QuizQuestion)
    (hq : quiz.questions[i]? = some q)
    (hne : q.options ≠ [])
    (h0 : 0 ≤ q.correctOptionIndex)
    (hlt : q.correctOptionIndex < (q.options.length : Int)) :
    ∃ q', (shuffleQuizOptions rnd quiz).questions[i]? = some q' ∧
      List.Perm q'.options q.options ∧
      q'.options.length = q.options.length ∧
      q'.options[q'.correctOptionIndex.toNat]?
        = q.options[q.correctOptionIndex.toNat]? := by
  refine ⟨shuffleQuestion (rnd i) q, ?_, ?_, ?_, ?_⟩
  · rw [shuffleQuizOptions_questions_getElem?, hq]; rfl
  · exact (shuffleQuestion_spec (rnd i) q hne).1
  · exact (shuffleQuestion_spec (rnd i) q hne).2.1
  · have hs := (shuffleQuestion_spec (rnd i) q hne).2.2.2.2
    have hsafe : safeIndex q = q.correctOptionIndex := by
      unfold safeIndex
      rw [min_eq_right (by omega), max_eq_right h0]
    rw [hs, hsafe]

/-- Witness for C4 at a concrete quiz, question and draw stream. -/
theorem claim_C4_witness :
    wQuiz.questions[0]? = some wQ1 ∧
    wQ1.options ≠ [] ∧ 0 ≤ wQ1.correctOptionIndex ∧
    wQ1.correctOptionIndex < (wQ1.options.length : Int) ∧
    (∃ q', (shuffleQuizOptions (fun _ _ => 1) wQuiz).questions[0]? = some q' ∧
      List.Perm q'.options wQ1.options ∧
      q'.options.length = wQ1.options.length ∧
      q'.options[q'.correctOptionIndex.toNat]?
        = wQ1.options[wQ1.correctOptionIndex.toNat]?) :=
  ⟨rfl, by decide, by decide, by decide,
    claim_C4_shuffle_permutation_preserves_answer (fun _ _ => 1) wQuiz 0 wQ1
      rfl (by decide) (by decide) (by decide)⟩

/-- C5: for every question with at least one option, even an out-of-range
input `correctOptionIndex` is clamped into `[0, len-1]` before shuffling, so
the returned `correctOptionIndex` is always a valid index into the returned
options, and the option there is the input option at the clamped index. -/
theorem claim_C5_shuffle_clamps_correct_index
    (rnd : Nat → Nat) (q : QuizQuestion) (hne : q.options ≠ []) :
    0 ≤ (shuffleQuestion rnd q).correctOptionIndex ∧
    (shuffleQuestion rnd q).correctOptionIndex.toNat
      < (shuffleQuestion rnd q).options.length ∧
    (shuffleQuestion rnd q).options[(shuffleQuestion rnd q).correctOptionIndex.toNat]?
      = q.options[(safeIndex q).toNat]? := by
  obtain ⟨_, hlen, h0, hlt, hval⟩ := shuffleQuestion_spec rnd q hne
  refine ⟨h0, ?_, hval⟩
  rw [hlen]
  omega

/-- Witness for C5 at a concrete question with an out-of-range index. -/
theorem claim_C5_witness :
    wBadQ.options ≠ [] ∧
    (0 ≤ (shuffleQuestion (fun _ => 1) wBadQ).correctOptionIndex ∧
      (shuffleQuestion (fun _ => 1) wBadQ).correctOptionIndex.toNat
        < (shuffleQuestion (fun _ => 1) wBadQ).options.length ∧
      (shuffleQuestion (fun _ => 1) wBadQ).options[(shuffleQuestion
        (fun _ => 1) wBadQ).correctOptionIndex.toNat]?
        = wBadQ.options[(safeIndex wBadQ).toNat]?) :=
  ⟨by decide, claim_C5_shuffle_clamps_correct_index (fun _ => 1) wBadQ (by decide)⟩

/-! ## Claim C1: idempotent no-op on succeeded records -/

/-- C1: when the stored record exists with status `succeeded` and `force` is
false, `processFile` returns the record as stored, makes no collaborator call
and no store write (the only effect is the one store read), leaves the
collection untouched, and a repeated call returns the same record again. -/
theorem claim_C1_process_idempotent_on_succeeded
    (cfg : AppConfig) (env : Env) (st : St) (fileId : String)
    (metadata : Option DriveFileMetadata) (questionCount : Nat) (r : DriveFile)
    (hget : st.store fileId = some r)
    (hst : r.status = ProcessingStatus.succeeded) :
    (processFile cfg env st fileId false metadata questionCount).out = .ok r ∧
    (processFile cfg env st fileId false metadata questionCount).st.store = st.store ∧
    (processFile cfg env st fileId false metadata questionCount).st.calls
      = st.calls ++ [CallEvent.storeGet fileId] ∧
    (processFile cfg env st fileId false metadata questionCount).st.writes
      = st.writes ∧
    (processFile cfg env
        (processFile cfg env st fileId false metadata questionCount).st
        fileId false metadata questionCount).out = .ok r := by
  have h1 : processFile cfg env st fileId false metadata questionCount
      = { out := .ok r, st := st.logCall (.storeGet fileId) } := by
    simp [processFile, repoGet, hget, hst]
  rw [h1]
  refine ⟨rfl, rfl, rfl, rfl, ?_⟩
  simp [processFile, repoGet, St.logCall, hget, hst]

/-- Witness for C1 on a concrete world with a succeeded record. -/
theorem claim_C1_witness :
    sSt.store "f1" = some sRec ∧ sRec.status = ProcessingStatus.succeeded ∧
    ((processFile cfg0 okEnv sSt "f1" false none 10).out = .ok sRec ∧
      (processFile cfg0 okEnv sSt "f1" false none 10).st.store = sSt.store ∧
      (processFile cfg0 okEnv sSt "f1" false none 10).st.calls
        = sSt.calls ++ [CallEvent.storeGet "f1"] ∧
      (processFile cfg0 okEnv sSt "f1" false none 10).st.writes = sSt.writes ∧
      (processFile cfg0 okEnv
          (processFile cfg0 okEnv sSt "f1" false none 10).st
          "f1" false none 10).out = .ok sRec) :=
  ⟨rfl, rfl,
    claim_C1_process_idempotent_on_succeeded cfg0 okEnv sSt "f1" none 10 sRec rfl rfl⟩

/-! ## Claim C3 (corrected): createdAt is refreshed, not set once -/

/-- C3 counterexample: two consecutive `setStatus` writes for the same id with
an empty payload (the shape of every orchestrator write, none of which sends
`createdAt`).  The claim says the second write leaves `createdAt` unchanged;
in fact it overwrites it with the second write's wall-clock time. -/
theorem claim_C3_counterexample :
    (c3Store1 "doc").map (·.createdAt) = some "tick 0" ∧
    (c3Store2 "doc").map (·.createdAt) = some "tick 1" ∧
    ("tick 1" : String) ≠ "tick 0" := by
  refine ⟨rfl, rfl, by decide⟩

/-- C3 amended: `setStatus` writes `createdAt` on *every* write — to the
payload's string value when the caller supplies one, otherwise to the current
write time (so a payload that does not mention `createdAt`, as all of the
orchestrator's writes do, gets it refreshed exactly like `updatedAt`);
`updatedAt` is refreshed to the current time on every write. -/
theorem claim_C3_amended_timestamps
    (store : Store) (now fileId : String) (status : ProcessingStatus)
    (p : DriveFileUpdate) :
    ((setStatus store now fileId status p) fileId).map (·.updatedAt) = some now ∧
    ((setStatus store now fileId status p) fileId).map (·.createdAt)
      = some (resolveCreatedAt p now) ∧
    (p.createdAt = FieldOp.keep →
      ((setStatus store now fileId status p) fileId).map (·.createdAt) = some now) := by
  refine ⟨by simp [mergeRecord], by simp [mergeRecord], ?_⟩
  intro h
  simp [mergeRecord, resolveCreatedAt, h]

/-- Witness for C3 amended at a concrete store and payload. -/
theorem claim_C3_amended_witness :
    (({} : DriveFileUpdate).createdAt = FieldOp.keep) ∧
    ((setStatus emptyStore "tick 9" "doc" .processing {}) "doc").map (·.createdAt)
      = some "tick 9" ∧
    ((setStatus emptyStore "tick 9" "doc" .processing {}) "doc").map (·.updatedAt)
      = some "tick 9" :=
  ⟨rfl,
    (claim_C3_amended_timestamps emptyStore "tick 9" "doc" .processing {}).2.2 rfl,
    (claim_C3_amended_timestamps emptyStore "tick 9" "doc" .processing {}).1⟩

/-! ## Claim C2 (corrected): missing markers skip, they do not reprocess -/

theorem hasMetadataChanged_eq_false_iff (r : DriveFile) (m : DriveFileMetadata) :
    hasMetadataChanged r m = false ↔
      (tsFalsyStr r.modifiedTime = true ∨ tsFalsyStr m.modifiedTime = true ∨
        r.modifiedTime = m.modifiedTime) := by
  unfold hasMetadataChanged
  by_cases h1 : tsFalsyStr r.modifiedTime = true
  · simp [h1]
  · by_cases h2 : tsFalsyStr m.modifiedTime = true
    · simp [h1, h2]
    · simp only [h1, h2, Bool.or_self, false_or]
      rw [if_neg (by simp [h1, h2])]
      simp [bne_eq_false_iff_eq, h1, h2]

/-- C2 counterexample: a succeeded record with *no* stored version marker and
a source file that *does* carry a marker.  The claim says such a document is
treated as changed and reprocessed; the scan in fact skips it (counts
`⟨processed, skipped, errors⟩ = ⟨0, 1, 0⟩`). -/
theorem claim_C2_counterexample :
    nmRec.status = ProcessingStatus.succeeded ∧
    nmRec.modifiedTime = none ∧
    wMeta.modifiedTime = some "mark-1" ∧
    scanCounts (scanFolder cfg0 okEnv nmSt) = some ⟨0, 1, 0⟩ :=
  ⟨rfl, rfl, rfl, rfl⟩

/-- C2 amended: in `scan()`, a document is skipped exactly when a stored
`succeeded` record exists and the two version markers are either equal or not
both usable (stored marker missing/empty, or source marker missing/empty):
missing markers are treated as *unchanged*, so such documents are skipped,
not reprocessed; and a skipped document triggers no orchestrator call — the
only effect is the store read. -/
theorem claim_C2_amended_scan_skip_characterization
    (cfg : AppConfig) (env : Env) (acc : ScanAcc) (file : DriveFileMetadata) :
    ((scanStep cfg env acc file).skipped = acc.skipped + 1
      ↔ ∃ r, acc.st.store file.id = some r ∧
          r.status = ProcessingStatus.succeeded ∧
          (tsFalsyStr r.modifiedTime = true ∨ tsFalsyStr file.modifiedTime = true ∨
            r.modifiedTime = file.modifiedTime)) ∧
    (∀ r, acc.st.store file.id = some r → r.status = ProcessingStatus.succeeded →
      hasMetadataChanged r file = false →
      (scanStep cfg env acc file).st
        = acc.st.logCall (CallEvent.storeGet file.id)) := by
  rcases hr : acc.st.store file.id with _ | r
  · have hstep : (scanStep cfg env acc file).skipped = acc.skipped := by
      unfold scanStep
      rw [hr]
      rcases hpf : processFile cfg env (acc.st.logCall (.storeGet file.id))
        file.id false (some file) 10 with ⟨out, stz⟩
      cases out <;> simp [hpf]
    refine ⟨?_, ?_⟩
    · rw [hstep]
      constructor
      · intro h; omega
      · rintro ⟨r, hr2, -, -⟩
        exact absurd hr2 (by simp)
    · intro r hr2
      exact absurd hr2 (by simp)
  · by_cases hu : (r.status == ProcessingStatus.succeeded && !hasMetadataChanged r file) = true
    · obtain ⟨hsucc, hmc⟩ :
        r.status = ProcessingStatus.succeeded ∧ hasMetadataChanged r file = false := by
        simpa using hu
      have hstep : scanStep cfg env acc file
          = { acc with skipped := acc.skipped + 1,
                       st := acc.st.logCall (.storeGet file.id) } := by
        unfold scanStep
        rw [hr]
        simp [hu]
      refine ⟨?_, ?_⟩
      · rw [hstep]
        constructor
        · intro _
          exact ⟨r, rfl, hsucc, (hasMetadataChanged_eq_false_iff r file).mp hmc⟩
        · intro _
          rfl
      · intro r' hr2 _ _
        rw [hstep]
    · have hstep : (scanStep cfg env acc file).skipped = acc.skipped := by
        unfold scanStep
        rw [hr]
        rcases hpf : processFile cfg env (acc.st.logCall (.storeGet file.id))
          file.id false (some file) 10 with ⟨out, stz⟩
        cases out <;> simp [hu, hpf]
      refine ⟨?_, ?_⟩
      · rw [hstep]
        constructor
        · intro h; omega
        · rintro ⟨r', hr2, hsucc, hcond⟩
          injection hr2 with h12
          subst h12
          exact absurd (by simp [hsucc, (hasMetadataChanged_eq_false_iff r file).mpr hcond]) hu
      · intro r' hr2 hsucc hmc
        injection hr2 with h12
        subst h12
        exact absurd (by simp [hsucc, hmc]) hu

/-! ## Pipeline helper lemmas -/

/-- The body of the `try` block never writes a `failed` status. -/
theorem pipelineBody_countP (cfg : AppConfig) (env : Env) (st1 : St) (fileId : String)
    (meta : DriveFileMetadata) (questionCount : Nat) :
    (pipelineBody cfg env st1 fileId meta questionCount).2.calls.countP isFailedSet
      = st1.calls.countP isFailedSet := by
  rcases he : env.exportDocumentText fileId with e | t
  · simp [pipelineBody, he, updateProgress, List.countP_append, List.countP_cons,
      isFailedSet]
  · rcases hq : env.generateQuiz (meta.name.getD ("Meeting " ++ fileId)) t
      questionCount cfg.quizAdditionalPrompt with e | quiz
    · simp [pipelineBody, he, hq, updateProgress, List.countP_append,
        List.countP_cons, isFailedSet]
    · rcases hf : env.createQuizForm (shuffleQuizOptions env.rnd quiz) with e | form
      · simp [pipelineBody, he, hq, hf, updateProgress, List.countP_append,
          List.countP_cons, isFailedSet]
      · simp [pipelineBody, he, hq, hf, updateProgress, List.countP_append,
          List.countP_cons, isFailedSet]

/-- The body of the `try` block only appends to the trace. -/
theorem pipelineBody_calls_mono (cfg : AppConfig) (env : Env) (st1 : St) (fileId : String)
    (meta : DriveFileMetadata) (questionCount : Nat) (ev : CallEvent)
    (h : ev ∈ st1.calls) :
    ev ∈ (pipelineBody cfg env st1 fileId meta questionCount).2.calls := by
  rcases he : env.exportDocumentText fileId with e | t
  · simp [pipelineBody, he, updateProgress, List.mem_append, h]
  · rcases hq : env.generateQuiz (meta.name.getD ("Meeting " ++ fileId)) t
      questionCount cfg.quizAdditionalPrompt with e | quiz
    · simp [pipelineBody, he, hq, updateProgress, List.mem_append, h]
    · rcases hf : env.createQuizForm (shuffleQuizOptions env.rnd quiz) with e | form
      · simp [pipelineBody, he, hq, hf, updateProgress, List.mem_append, h]
      · simp [pipelineBody, he, hq, hf, updateProgress, List.mem_append, h]

/-- The `try` block never writes a `failed` status. -/
theorem runPipeline_countP (cfg : AppConfig) (env : Env) (st0 : St) (fileId : String)
    (metadata : Option DriveFileMetadata) (questionCount : Nat) :
    (runPipeline cfg env st0 fileId metadata questionCount).2.calls.countP isFailedSet
      = st0.calls.countP isFailedSet := by
  unfold runPipeline
  rcases metadata with _ | m
  · rcases hm : env.getFileMetadata fileId with e | m <;>
      simp [hm, pipelineBody_countP, List.countP_append, List.countP_cons, isFailedSet]
  · simpa using pipelineBody_countP cfg env st0 fileId m questionCount

/-- The `try` block only appends to the trace. -/
theorem runPipeline_calls_mono (cfg : AppConfig) (env : Env) (st0 : St) (fileId : String)
    (metadata : Option DriveFileMetadata) (questionCount : Nat) (ev : CallEvent)
    (h : ev ∈ st0.calls) :
    ev ∈ (runPipeline cfg env st0 fileId metadata questionCount).2.calls := by
  unfold runPipeline
  rcases metadata with _ | m
  · rcases hm : env.getFileMetadata fileId with e | m
    · simp [hm, List.mem_append, h]
    · simp only [hm]
      exact pipelineBody_calls_mono cfg env _ fileId m questionCount ev
        (by simp [List.mem_append, h])
  · exact pipelineBody_calls_mono cfg env st0 fileId m questionCount ev h

/-- `processFile` reduces to the attempt body when the short-circuit does not
apply. -/
theorem processFile_eq_run (cfg : AppConfig) (env : Env) (st : St) (fileId : String)
    (force : Bool) (metadata : Option DriveFileMetadata) (questionCount : Nat)
    (h : ∀ r, st.store fileId = some r →
      ¬(r.status = ProcessingStatus.succeeded ∧ force = false)) :
    processFile cfg env st fileId force metadata questionCount
      = processFileRun cfg env (st.logCall (.storeGet fileId)) fileId
          metadata questionCount := by
  rcases hg : st.store fileId with _ | r
  · simp [processFile, repoGet, hg]
  · simp [processFile, repoGet, hg, h r hg]

/-- `processFile` short-circuits on an unforced succeeded record. -/
theorem processFile_shortcircuit (cfg : AppConfig) (env : Env) (st : St)
    (fileId : String) (metadata : Option DriveFileMetadata) (questionCount : Nat)
    (r : DriveFile) (hg : st.store fileId = some r)
    (hs : r.status = ProcessingStatus.succeeded) :
    processFile cfg env st fileId false metadata questionCount
      = { out := .ok r, st := st.logCall (.storeGet fileId) } := by
  simp [processFile, repoGet, hg, hs]

/-- The attempt body writes a `failed` status exactly when it re-raises. -/
theorem processFileRun_countP (cfg : AppConfig) (env : Env) (st0 : St)
    (fileId : String) (metadata : Option DriveFileMetadata) (questionCount : Nat) :
    (processFileRun cfg env st0 fileId metadata questionCount).st.calls.countP isFailedSet
      = st0.calls.countP isFailedSet
        + (match (processFileRun cfg env st0 fileId metadata questionCount).out with
            | .ok _ => 0
            | .error _ => 1) := by
  unfold processFileRun
  rcases hrp : runPipeline cfg env
    (repoSetStatus env st0 fileId .processing
      (clearingPayload ⟨.metadata, some "Fetching metadata", some 5⟩ questionCount))
    fileId metadata questionCount with ⟨out1, st2⟩
  have hc := runPipeline_countP cfg env
    (repoSetStatus env st0 fileId .processing
      (clearingPayload ⟨.metadata, some "Fetching metadata", some 5⟩ questionCount))
    fileId metadata questionCount
  rw [hrp] at hc
  cases out1 <;>
    simp_all [List.countP_append, List.countP_cons, isFailedSet]

/-- The attempt body only appends to the trace. -/
theorem processFileRun_calls_mono (cfg : AppConfig) (env : Env) (st0 : St)
    (fileId : String) (metadata : Option DriveFileMetadata) (questionCount : Nat)
    (ev : CallEvent) (h : ev ∈ st0.calls) :
    ev ∈ (processFileRun cfg env st0 fileId metadata questionCount).st.calls := by
  unfold processFileRun
  rcases hrp : runPipeline cfg env
    (repoSetStatus env st0 fileId .processing
      (clearingPayload ⟨.metadata, some "Fetching metadata", some 5⟩ questionCount))
    fileId metadata questionCount with ⟨out1, st2⟩
  have hm := runPipeline_calls_mono cfg env
    (repoSetStatus env st0 fileId .processing
      (clearingPayload ⟨.metadata, some "Fetching metadata", some 5⟩ questionCount))
    fileId metadata questionCount ev (by simp [List.mem_append, h])
  rw [hrp] at hm
  cases out1 <;> simp_all [List.mem_append]

/-- `processFile` only appends to the trace. -/
theorem processFile_calls_mono (cfg : AppConfig) (env : Env) (st : St) (fileId : String)
    (force : Bool) (metadata : Option DriveFileMetadata) (questionCount : Nat)
    (ev : CallEvent) (h : ev ∈ st.calls) :
    ev ∈ (processFile cfg env st fileId force metadata questionCount).st.calls := by
  rcases hg : st.store fileId with _ | r
  · rw [processFile_eq_run cfg env st fileId force metadata questionCount
      (by intro r hr; rw [hg] at hr; cases hr)]
    exact processFileRun_calls_mono cfg env _ fileId metadata questionCount ev
      (by simp [List.mem_append, h])
  · by_cases hsc : r.status = ProcessingStatus.succeeded ∧ force = false
    · obtain ⟨hs, hf⟩ := hsc
      subst hf
      rw [processFile_shortcircuit cfg env st fileId metadata questionCount r hg hs]
      simp [List.mem_append, h]
    · rw [processFile_eq_run cfg env st fileId force metadata questionCount
        (by intro r' hr'; rw [hg] at hr'; injection hr' with h12; subst h12; exact hsc)]
      exact processFileRun_calls_mono cfg env _ fileId metadata questionCount ev
        (by simp [List.mem_append, h])

/-- Computed form of a fully successful pipeline body. -/
theorem pipelineBody_success_spec (cfg : AppConfig) (env : Env) (st1 : St)
    (fileId : String) (m : DriveFileMetadata) (transcript : String)
    (quiz : QuizPayload) (form : CreateFormResult) (questionCount : Nat)
    (hexp : env.exportDocumentText fileId = .ok transcript)
    (hq : env.generateQuiz (m.name.getD ("Meeting " ++ fileId)) transcript
        questionCount cfg.quizAdditionalPrompt = .ok quiz)
    (hf : env.createQuizForm (shuffleQuizOptions env.rnd quiz) = .ok form) :
    ∃ rec, (pipelineBody cfg env st1 fileId m questionCount).1 = .ok rec ∧
      (pipelineBody cfg env st1 fileId m questionCount).2.store fileId = some rec ∧
      rec.status = ProcessingStatus.succeeded ∧
      rec.formId = some form.formId ∧
      rec.formUrl = some form.formUrl ∧
      rec.geminiSummary = some quiz.summary ∧
      rec.questionCount = some quiz.questions.length ∧
      rec.progress = some ⟨.done, some "Completed", some 100⟩ ∧
      rec.title = some (m.name.getD ("Meeting " ++ fileId)) := by
  simp only [pipelineBody, hexp, hq, hf, updateProgress, repoSetStatus_store,
    repoSetStatus_writes, logCall_store, logCall_writes, setStatus_apply_same]
  exact ⟨_, rfl, rfl, rfl, rfl, rfl, rfl, rfl, rfl, rfl⟩

/-- Computed form of a pipeline body whose transcript export throws. -/
theorem pipelineBody_exportfail_spec (cfg : AppConfig) (env : Env) (st1 : St)
    (fileId : String) (m : DriveFileMetadata) (questionCount : Nat) (e : String)
    (hexp : env.exportDocumentText fileId = .error e) :
    (pipelineBody cfg env st1 fileId m questionCount).1 = .error e ∧
    (pipelineBody cfg env st1 fileId m questionCount).2.store fileId
      = some (mergeRecord (st1.store fileId) (env.clock st1.writes) fileId .processing
          { title := .set (m.name.getD ("Meeting " ++ fileId))
            modifiedTime := FieldOp.ofOption m.modifiedTime
            questionCount := .set questionCount
            progress := .set ⟨.metadata, some "Metadata fetched", some 10⟩ }) := by
  constructor <;> simp [pipelineBody, hexp]

/-! ## Claim C9: the final success write and return -/

/-- C9: when the whole pipeline succeeds (metadata resolved from the argument
or the content source, transcript exported, quiz generated, form created) and
the call is not short-circuited, the final write persists `succeeded`, the
published form id and URL, the quiz summary, `progress = {done, Completed,
100}` and `questionCount` equal to the number of questions actually present in
the generated quiz, and `processFile` returns exactly the re-read persisted
record. -/
theorem claim_C9_success_write_and_return
    (cfg : AppConfig) (env : Env) (st : St) (fileId : String) (force : Bool)
    (metadata : Option DriveFileMetadata) (questionCount : Nat)
    (m : DriveFileMetadata) (transcript : String) (quiz : QuizPayload)
    (form : CreateFormResult)
    (hmeta : metadata = some m ∨
      (metadata = none ∧ env.getFileMetadata fileId = .ok m))
    (hexp : env.exportDocumentText fileId = .ok transcript)
    (hq : env.generateQuiz (m.name.getD ("Meeting " ++ fileId)) transcript
        questionCount cfg.quizAdditionalPrompt = .ok quiz)
    (hf : env.createQuizForm (shuffleQuizOptions env.rnd quiz) = .ok form)
    (hns : ∀ r, st.store fileId = some r →
      ¬(r.status = ProcessingStatus.succeeded ∧ force = false)) :
    ∃ rec, (processFile cfg env st fileId force metadata questionCount).out
        = .ok rec ∧
      (processFile cfg env st fileId force metadata questionCount).st.store fileId
        = some rec ∧
      rec.status = ProcessingStatus.succeeded ∧
      rec.formId = some form.formId ∧
      rec.formUrl = some form.formUrl ∧
      rec.geminiSummary = some quiz.summary ∧
      rec.questionCount = some quiz.questions.length ∧
      rec.progress = some ⟨.done, some "Completed", some 100⟩ := by
  rw [processFile_eq_run cfg env st fileId force metadata questionCount hns]
  have hbody : ∀ st1 : St,
      ∃ rec, (pipelineBody cfg env st1 fileId m questionCount).1 = .ok rec ∧
        (pipelineBody cfg env st1 fileId m questionCount).2.store fileId = some rec ∧
        rec.status = ProcessingStatus.succeeded ∧
        rec.formId = some form.formId ∧
        rec.formUrl = some form.formUrl ∧
        rec.geminiSummary = some quiz.summary ∧
        rec.questionCount = some quiz.questions.length ∧
        rec.progress = some ⟨.done, some "Completed", some 100⟩ := by
    intro st1
    obtain ⟨rec, h1, h2, h3, h4, h5, h6, h7, h8, _⟩ :=
      pipelineBody_success_spec cfg env st1 fileId m transcript quiz form
        questionCount hexp hq hf
    exact ⟨rec, h1, h2, h3, h4, h5, h6, h7, h8⟩
  rcases hmeta with hm | ⟨hm, hgm⟩ <;> subst hm
  · obtain ⟨rec, h1, h2, hrest⟩ := hbody
      (repoSetStatus env (st.logCall (.storeGet fileId)) fileId .processing
        (clearingPayload ⟨.metadata, some "Fetching metadata", some 5⟩ questionCount))
    refine ⟨rec, ?_, ?_, hrest⟩
    · unfold processFileRun runPipeline
      rcases hrp : pipelineBody cfg env
        (repoSetStatus env (st.logCall (.storeGet fileId)) fileId .processing
          (clearingPayload ⟨.metadata, some "Fetching metadata", some 5⟩ questionCount))
        fileId m questionCount with ⟨out1, st2⟩
      rw [hrp] at h1
      simp at h1
      subst h1
      simp [hrp]
    · unfold processFileRun runPipeline
      rcases hrp : pipelineBody cfg env
        (repoSetStatus env (st.logCall (.storeGet fileId)) fileId .processing
          (clearingPayload ⟨.metadata, some "Fetching metadata", some 5⟩ questionCount))
        fileId m questionCount with ⟨out1, st2⟩
      rw [hrp] at h1 h2
      simp at h1
      subst h1
      simpa [hrp] using h2
  · obtain ⟨rec, h1, h2, hrest⟩ := hbody
      ((repoSetStatus env (st.logCall (.storeGet fileId)) fileId .processing
        (clearingPayload ⟨.metadata, some "Fetching metadata", some 5⟩
          questionCount)).logCall (.getMetadata fileId))
    refine ⟨rec, ?_, ?_, hrest⟩
    · unfold processFileRun runPipeline
      rw [hgm]
      rcases hrp : pipelineBody cfg env
        ((repoSetStatus env (st.logCall (.storeGet fileId)) fileId .processing
          (clearingPayload ⟨.metadata, some "Fetching metadata", some 5⟩
            questionCount)).logCall (.getMetadata fileId))
        fileId m questionCount with ⟨out1, st2⟩
      rw [hrp] at h1
      simp at h1
      subst h1
      simp [hrp]
    · unfold processFileRun runPipeline
      rw [hgm]
      rcases hrp : pipelineBody cfg env
        ((repoSetStatus env (st.logCall (.storeGet fileId)) fileId .processing
          (clearingPayload ⟨.metadata, some "Fetching metadata", some 5⟩
            questionCount)).logCall (.getMetadata fileId))
        fileId m questionCount with ⟨out1, st2⟩
      rw [hrp] at h1 h2
      simp at h1
      subst h1
      simpa [hrp] using h2

/-- Witness for C9 on a concrete world: empty store, all collaborators
succeed, requested count 3 while the generated quiz has 1 question. -/
theorem claim_C9_witness :
    okEnv.exportDocumentText "f1" = .ok "Alice discussed the release." ∧
    okEnv.createQuizForm (shuffleQuizOptions okEnv.rnd wQuiz) = .ok wForm ∧
    (∃ rec, (processFile cfg0 okEnv emptySt "f1" false none 3).out = .ok rec ∧
      (processFile cfg0 okEnv emptySt "f1" false none 3).st.store "f1" = some rec ∧
      rec.status = ProcessingStatus.succeeded ∧
      rec.formId = some wForm.formId ∧
      rec.formUrl = some wForm.formUrl ∧
      rec.geminiSummary = some wQuiz.summary ∧
      rec.questionCount = some wQuiz.questions.length ∧
      rec.progress = some ⟨.done, some "Completed", some 100⟩) :=
  ⟨rfl, rfl,
    claim_C9_success_write_and_return cfg0 okEnv emptySt "f1" false none 3
      ⟨"f1", some "Standup", some "mark-1"⟩ "Alice discussed the release." wQuiz wForm
      (Or.inr ⟨rfl, rfl⟩) rfl rfl rfl
      (fun r hr => by simp [emptySt, emptyStore] at hr)⟩

/-! ## Claim C6: failure semantics -/

/-- C6: whenever `processFile` re-raises an exception `e` (with a non-empty
message), exactly one failure write has occurred: the stored record has
`status = failed`, `error` set to the message verbatim and `progress = {error,
message, 100}`; and when the failing step was the transcript export after the
metadata of the scan path, the already-persisted `title` and version marker
are not rolled back by that failure write. -/
theorem claim_C6_failure_write_semantics
    (cfg : AppConfig) (env : Env) (st : St) (fileId : String) (force : Bool)
    (metadata : Option DriveFileMetadata) (questionCount : Nat) (e : String)
    (hfail : (processFile cfg env st fileId force metadata questionCount).out
      = .error e)
    (he : e ≠ "") :
    ∃ rec, (processFile cfg env st fileId force metadata questionCount).st.store fileId
        = some rec ∧
      rec.status = ProcessingStatus.failed ∧
      rec.error = some e ∧
      rec.progress = some ⟨.error, some e, some 100⟩ ∧
      (processFile cfg env st fileId force metadata questionCount).st.calls.countP
          isFailedSet
        = st.calls.countP isFailedSet + 1 ∧
      (∀ m, metadata = some m → env.exportDocumentText fileId = .error e →
        rec.title = some (m.name.getD ("Meeting " ++ fileId)) ∧
        rec.modifiedTime = m.modifiedTime) := by
  have hns : ∀ r, st.store fileId = some r →
      ¬(r.status = ProcessingStatus.succeeded ∧ force = false) := by
    intro r hr hsc
    obtain ⟨hs, hf2⟩ := hsc
    subst hf2
    rw [processFile_shortcircuit cfg env st fileId metadata questionCount r hr hs]
      at hfail
    simp at hfail
  rw [processFile_eq_run cfg env st fileId force metadata questionCount hns]
    at hfail ⊢
  unfold processFileRun at hfail ⊢
  rcases hrp : runPipeline cfg env
    (repoSetStatus env (st.logCall (.storeGet fileId)) fileId .processing
      (clearingPayload ⟨.metadata, some "Fetching metadata", some 5⟩ questionCount))
    fileId metadata questionCount with ⟨out1, st2⟩
  cases out1 with
  | ok rec0 =>
    simp only [hrp] at hfail
    simp at hfail
  | error e0 =>
    simp only [hrp] at hfail ⊢
    simp only [Except.error.injEq] at hfail
    subst hfail
    have hcount := runPipeline_countP cfg env
      (repoSetStatus env (st.logCall (.storeGet fileId)) fileId .processing
        (clearingPayload ⟨.metadata, some "Fetching metadata", some 5⟩ questionCount))
      fileId metadata questionCount
    rw [hrp] at hcount
    have hfall : fallbackMessage e0 = e0 := by simp [fallbackMessage, he]
    simp only [repoSetStatus_store, setStatus_apply_same]
    refine ⟨_, rfl, rfl, ?_, ?_, ?_, ?_⟩
    · simp [mergeRecord, applyField, hfall]
    · simp [mergeRecord, applyField, hfall]
    · simp only [repoSetStatus_calls, List.countP_append, List.countP_cons]
      simp only [repoSetStatus_calls, logCall_calls, List.countP_append,
        List.countP_cons] at hcount
      simp [hcount, isFailedSet]
    · intro m hm hexp2
      subst hm
      simp only [runPipeline] at hrp
      obtain ⟨-, hB⟩ := pipelineBody_exportfail_spec cfg env
        (repoSetStatus env (st.logCall (.storeGet fileId)) fileId .processing
          (clearingPayload ⟨.metadata, some "Fetching metadata", some 5⟩ questionCount))
        fileId m questionCount e0 hexp2
      rw [hrp] at hB
      simp only at hB
      rw [hB]
      simp only [repoSetStatus_store, setStatus_apply_same, logCall_store]
      constructor
      · simp [mergeRecord, applyField]
      · rcases m.modifiedTime with _ | v <;>
          simp [mergeRecord, applyField, FieldOp.ofOption, clearingPayload]

/-- Witness for C6 on a concrete world where the transcript export throws
`boom`. -/
theorem claim_C6_witness :
    (processFile cfg0 failEnv emptySt "f1" false (some wMeta) 10).out
      = .error "boom" ∧
    ("boom" : String) ≠ "" ∧
    (∃ rec, (processFile cfg0 failEnv emptySt "f1" false (some wMeta) 10).st.store "f1"
        = some rec ∧
      rec.status = ProcessingStatus.failed ∧
      rec.error = some "boom" ∧
      rec.progress = some ⟨.error, some "boom", some 100⟩ ∧
      (processFile cfg0 failEnv emptySt "f1" false (some wMeta) 10).st.calls.countP
          isFailedSet
        = emptySt.calls.countP isFailedSet + 1 ∧
      (∀ m, (some wMeta : Option DriveFileMetadata) = some m →
        failEnv.exportDocumentText "f1" = .error "boom" →
        rec.title = some (m.name.getD ("Meeting " ++ "f1")) ∧
        rec.modifiedTime = m.modifiedTime)) :=
  ⟨rfl, by decide,
    claim_C6_failure_write_semantics cfg0 failEnv emptySt "f1" false (some wMeta)
      10 "boom" rfl (by decide)⟩

/-! ## Claim C7: attempt-start field clearing -/

/-- C7: the attempt-start write of `processFile` and `enqueueProcessing` marks
for deletion exactly the six prior-attempt fields (`title`, the version marker
`modifiedTime`, `formId`, `formUrl`, the summary `geminiSummary`, `error`)
while setting the fresh `progress` and `questionCount`; fields a merge write
does not mention are left unchanged; and after a forced re-run that fails at
the transcript step, none of the prior run's `formId`/`formUrl`/summary/error
values remain — the new `error` holds only the current failure. -/
theorem claim_C7_attempt_start_clears_prior_fields :
    (∀ (old : Option DriveFile) (now fid : String) (prog : ProcessingProgress)
        (qc : Nat),
      (mergeRecord old now fid .processing (clearingPayload prog qc)).title = none ∧
      (mergeRecord old now fid .processing (clearingPayload prog qc)).modifiedTime
        = none ∧
      (mergeRecord old now fid .processing (clearingPayload prog qc)).formId = none ∧
      (mergeRecord old now fid .processing (clearingPayload prog qc)).formUrl = none ∧
      (mergeRecord old now fid .processing (clearingPayload prog qc)).geminiSummary
        = none ∧
      (mergeRecord old now fid .processing (clearingPayload prog qc)).error = none ∧
      (mergeRecord old now fid .processing (clearingPayload prog qc)).progress
        = some prog ∧
      (mergeRecord old now fid .processing (clearingPayload prog qc)).questionCount
        = some qc) ∧
    (∀ (old : Option DriveFile) (now fid : String) (status : ProcessingStatus)
        (p : DriveFileUpdate),
      (p.title = FieldOp.keep →
        (mergeRecord old now fid status p).title = old.bind (·.title)) ∧
      (p.formId = FieldOp.keep →
        (mergeRecord old now fid status p).formId = old.bind (·.formId)) ∧
      (p.formUrl = FieldOp.keep →
        (mergeRecord old now fid status p).formUrl = old.bind (·.formUrl)) ∧
      (p.geminiSummary = FieldOp.keep →
        (mergeRecord old now fid status p).geminiSummary
          = old.bind (·.geminiSummary)) ∧
      (p.error = FieldOp.keep →
        (mergeRecord old now fid status p).error = old.bind (·.error))) ∧
    (∀ (cfg : AppConfig) (env : Env) (st : St) (fid : String)
        (m : DriveFileMetadata) (qc : Nat) (e : String),
      env.exportDocumentText fid = .error e →
      ∃ rec, (processFile cfg env st fid true (some m) qc).st.store fid = some rec ∧
        rec.formId = none ∧ rec.formUrl = none ∧ rec.geminiSummary = none ∧
        rec.error = some (fallbackMessage e)) := by
  refine ⟨?_, ?_, ?_⟩
  · intro old now fid prog qc
    simp [mergeRecord, clearingPayload, applyField]
  · intro old now fid status p
    refine ⟨?_, ?_, ?_, ?_, ?_⟩ <;> intro hk <;> simp [mergeRecord, hk, applyField]
  · intro cfg env st fid m qc e hexp
    rw [processFile_eq_run cfg env st fid true (some m) qc
      (fun r hr hsc => by cases hsc.2)]
    unfold processFileRun
    rcases hrp : runPipeline cfg env
      (repoSetStatus env (st.logCall (.storeGet fid)) fid .processing
        (clearingPayload ⟨.metadata, some "Fetching metadata", some 5⟩ qc))
      fid (some m) qc with ⟨out1, st2⟩
    have hspec := pipelineBody_exportfail_spec cfg env
      (repoSetStatus env (st.logCall (.storeGet fid)) fid .processing
        (clearingPayload ⟨.metadata, some "Fetching metadata", some 5⟩ qc))
      fid m qc e hexp
    simp only [runPipeline] at hrp
    obtain ⟨hA, hB⟩ := hspec
    rw [hrp] at hA hB
    simp only at hA hB
    subst hA
    simp only [runPipeline, hrp]
    simp only [repoSetStatus_store, setStatus_apply_same]
    refine ⟨_, rfl, ?_, ?_, ?_, ?_⟩
    · rw [show (st2.store fid) = _ from hB]
      simp [mergeRecord, applyField, clearingPayload]
    · rw [show (st2.store fid) = _ from hB]
      simp [mergeRecord, applyField, clearingPayload]
    · rw [show (st2.store fid) = _ from hB]
      simp [mergeRecord, applyField, clearingPayload]
    · simp [mergeRecord, applyField]

/-- Witness for C7's failing forced re-run over a prior succeeded record with
populated form fields. -/
theorem claim_C7_witness :
    failEnv.exportDocumentText "f1" = .error "boom" ∧
    (∃ rec, (processFile cfg0 failEnv sSt "f1" true (some wMeta) 5).st.store "f1"
        = some rec ∧
      rec.formId = none ∧ rec.formUrl = none ∧ rec.geminiSummary = none ∧
      rec.error = some (fallbackMessage "boom")) :=
  ⟨rfl,
    claim_C7_attempt_start_clears_prior_fields.2.2 cfg0 failEnv sSt "f1" wMeta 5
      "boom" rfl⟩

/-! ## Scan loop lemmas -/

/-- One scan iteration bumps exactly one of the three counters. -/
theorem scanStep_trichotomy (cfg : AppConfig) (env : Env) (acc : ScanAcc)
    (file : DriveFileMetadata) :
    ((scanStep cfg env acc file).processed = acc.processed + 1 ∧
      (scanStep cfg env acc file).skipped = acc.skipped ∧
      (scanStep cfg env acc file).errors = acc.errors) ∨
    ((scanStep cfg env acc file).processed = acc.processed ∧
      (scanStep cfg env acc file).skipped = acc.skipped + 1 ∧
      (scanStep cfg env acc file).errors = acc.errors) ∨
    ((scanStep cfg env acc file).processed = acc.processed ∧
      (scanStep cfg env acc file).skipped = acc.skipped ∧
      (scanStep cfg env acc file).errors = acc.errors + 1) := by
  rcases hr : acc.st.store file.id with _ | r
  · rcases hpf : processFile cfg env (acc.st.logCall (.storeGet file.id)) file.id
      false (some file) 10 with ⟨out, stz⟩
    cases out with
    | ok rec =>
      have hstep : scanStep cfg env acc file
          = { acc with processed := acc.processed + 1, st := stz } := by
        unfold scanStep
        rw [hr]
        simp [hpf]
      rw [hstep]
      exact Or.inl ⟨rfl, rfl, rfl⟩
    | error e =>
      have hstep : scanStep cfg env acc file
          = { acc with errors := acc.errors + 1, st := stz } := by
        unfold scanStep
        rw [hr]
        simp [hpf]
      rw [hstep]
      exact Or.inr (Or.inr ⟨rfl, rfl, rfl⟩)
  · by_cases hu : (r.status == ProcessingStatus.succeeded
        && !hasMetadataChanged r file) = true
    · have hstep : scanStep cfg env acc file
          = { acc with skipped := acc.skipped + 1,
                       st := acc.st.logCall (.storeGet file.id) } := by
        unfold scanStep
        rw [hr]
        simp [hu]
      rw [hstep]
      exact Or.inr (Or.inl ⟨rfl, rfl, rfl⟩)
    · rcases hpf : processFile cfg env (acc.st.logCall (.storeGet file.id)) file.id
        false (some file) 10 with ⟨out, stz⟩
      cases out with
      | ok rec =>
        have hstep : scanStep cfg env acc file
            = { acc with processed := acc.processed + 1, st := stz } := by
          unfold scanStep
          rw [hr]
          simp [hu, hpf]
        rw [hstep]
        exact Or.inl ⟨rfl, rfl, rfl⟩
      | error e =>
        have hstep : scanStep cfg env acc file
            = { acc with errors := acc.errors + 1, st := stz } := by
          unfold scanStep
          rw [hr]
          simp [hu, hpf]
        rw [hstep]
        exact Or.inr (Or.inr ⟨rfl, rfl, rfl⟩)

/-- The scan loop adds exactly one counter unit per listed document. -/
theorem scanLoop_counts (cfg : AppConfig) (env : Env) :
    ∀ (files : List DriveFileMetadata) (acc : ScanAcc),
      (files.foldl (scanStep cfg env) acc).processed
          + (files.foldl (scanStep cfg env) acc).skipped
          + (files.foldl (scanStep cfg env) acc).errors
        = acc.processed + acc.skipped + acc.errors + files.length
  | [], acc => by simp
  | f :: rest, acc => by
    have ih := scanLoop_counts cfg env rest (scanStep cfg env acc f)
    simp only [List.foldl_cons, List.length_cons]
    rw [ih]
    rcases scanStep_trichotomy cfg env acc f with ⟨h1, h2, h3⟩ | ⟨h1, h2, h3⟩ | ⟨h1, h2, h3⟩ <;>
      rw [h1, h2, h3] <;> omega

/-- A scan iteration only appends to the trace. -/
theorem scanStep_calls_mono (cfg : AppConfig) (env : Env) (acc : ScanAcc)
    (file : DriveFileMetadata) (ev : CallEvent) (h : ev ∈ acc.st.calls) :
    ev ∈ (scanStep cfg env acc file).st.calls := by
  unfold scanStep
  rcases hr : acc.st.store file.id with _ | r
  · rcases hpf : processFile cfg env (acc.st.logCall (.storeGet file.id)) file.id
      false (some file) 10 with ⟨out, stz⟩
    have hm := processFile_calls_mono cfg env (acc.st.logCall (.storeGet file.id))
      file.id false (some file) 10 ev (by simp [List.mem_append, h])
    rw [hpf] at hm
    cases out <;> simp [hr, hpf, hm]
  · by_cases hu : (r.status == ProcessingStatus.succeeded
        && !hasMetadataChanged r file) = true
    · simp [hr, hu, List.mem_append, h]
    · rcases hpf : processFile cfg env (acc.st.logCall (.storeGet file.id)) file.id
        false (some file) 10 with ⟨out, stz⟩
      have hm := processFile_calls_mono cfg env (acc.st.logCall (.storeGet file.id))
        file.id false (some file) 10 ev (by simp [List.mem_append, h])
      rw [hpf] at hm
      cases out <;> simp [hr, hu, hpf, hm]

/-- Every scan iteration logs the store read of its document. -/
theorem scanStep_logs_get (cfg : AppConfig) (env : Env) (acc : ScanAcc)
    (file : DriveFileMetadata) :
    CallEvent.storeGet file.id ∈ (scanStep cfg env acc file).st.calls := by
  unfold scanStep
  rcases hr : acc.st.store file.id with _ | r
  · rcases hpf : processFile cfg env (acc.st.logCall (.storeGet file.id)) file.id
      false (some file) 10 with ⟨out, stz⟩
    have hm := processFile_calls_mono cfg env (acc.st.logCall (.storeGet file.id))
      file.id false (some file) 10 (CallEvent.storeGet file.id)
      (by simp [List.mem_append])
    rw [hpf] at hm
    cases out <;> simp [hr, hpf, hm]
  · by_cases hu : (r.status == ProcessingStatus.succeeded
        && !hasMetadataChanged r file) = true
    · simp [hr, hu, List.mem_append]
    · rcases hpf : processFile cfg env (acc.st.logCall (.storeGet file.id)) file.id
        false (some file) 10 with ⟨out, stz⟩
      have hm := processFile_calls_mono cfg env (acc.st.logCall (.storeGet file.id))
        file.id false (some file) 10 (CallEvent.storeGet file.id)
        (by simp [List.mem_append])
      rw [hpf] at hm
      cases out <;> simp [hr, hu, hpf, hm]

/-- The scan loop only appends to the trace. -/
theorem scanLoop_calls_mono (cfg : AppConfig) (env : Env) :
    ∀ (files : List DriveFileMetadata) (acc : ScanAcc) (ev : CallEvent),
      ev ∈ acc.st.calls → ev ∈ (files.foldl (scanStep cfg env) acc).st.calls
  | [], _, _, h => h
  | f :: rest, acc, ev, h =>
    scanLoop_calls_mono cfg env rest (scanStep cfg env acc f) ev
      (scanStep_calls_mono cfg env acc f ev h)

/-- The scan loop reads the record of every listed document. -/
theorem scanLoop_mem_get (cfg : AppConfig) (env : Env) :
    ∀ (files : List DriveFileMetadata) (acc : ScanAcc) (f : DriveFileMetadata),
      f ∈ files →
      CallEvent.storeGet f.id ∈ (files.foldl (scanStep cfg env) acc).st.calls
  | [], _, f, h => by simp at h
  | g :: rest, acc, f, h => by
    rcases List.mem_cons.mp h with h | h
    · subst h
      exact scanLoop_calls_mono cfg env rest (scanStep cfg env acc f)
        (CallEvent.storeGet f.id) (scanStep_logs_get cfg env acc f)
    · exact scanLoop_mem_get cfg env rest (scanStep cfg env acc g) f h

/-! ## Claims C8 and C10: the scan loop -/

/-- C8: a per-document error during a scan is caught: it bumps only the
`errors` counter, the loop continues with the remaining documents, every
listed document is still examined (its store read is in the final trace), and
the scan as a whole still returns the three counters. -/
theorem claim_C8_scan_partial_failure_isolation
    (cfg : AppConfig) (env : Env) (st : St) (folderId : String)
    (files : List DriveFileMetadata)
    (hcfg : cfg.googleDriveFolderId = some folderId)
    (hfid : folderId ≠ "")
    (hlist : env.listFolderFiles folderId = .ok files) :
    (∃ s st', scanFolder cfg env st = .ok (s, st') ∧
      ∀ f ∈ files, CallEvent.storeGet f.id ∈ st'.calls) ∧
    (∀ (acc : ScanAcc) (f : DriveFileMetadata) (rest : List DriveFileMetadata),
      (f :: rest).foldl (scanStep cfg env) acc
        = rest.foldl (scanStep cfg env) (scanStep cfg env acc f)) ∧
    (∀ (acc : ScanAcc) (f : DriveFileMetadata) (e : String) (stz : St),
      (match acc.st.store f.id with
        | some r => r.status == ProcessingStatus.succeeded && !hasMetadataChanged r f
        | none => false) = false →
      processFile cfg env (acc.st.logCall (.storeGet f.id)) f.id false (some f) 10
        = ⟨.error e, stz⟩ →
      (scanStep cfg env acc f).errors = acc.errors + 1 ∧
      (scanStep cfg env acc f).processed = acc.processed ∧
      (scanStep cfg env acc f).skipped = acc.skipped) := by
  refine ⟨?_, fun acc f rest => rfl, ?_⟩
  · have hsf : scanFolder cfg env st = .ok
        (⟨(files.foldl (scanStep cfg env)
              ⟨0, 0, 0, st.logCall (.listFiles folderId)⟩).processed,
          (files.foldl (scanStep cfg env)
              ⟨0, 0, 0, st.logCall (.listFiles folderId)⟩).skipped,
          (files.foldl (scanStep cfg env)
              ⟨0, 0, 0, st.logCall (.listFiles folderId)⟩).errors⟩,
         (files.foldl (scanStep cfg env)
              ⟨0, 0, 0, st.logCall (.listFiles folderId)⟩).st) := by
      simp [scanFolder, hcfg, hfid, hlist]
    refine ⟨_, _, hsf, ?_⟩
    intro f hf
    exact scanLoop_mem_get cfg env files ⟨0, 0, 0, st.logCall (.listFiles folderId)⟩ f hf
  · intro acc f e stz hunc hpf
    have hstep : scanStep cfg env acc f
        = { acc with errors := acc.errors + 1, st := stz } := by
      unfold scanStep
      simp [hunc, hpf]
    rw [hstep]
    exact ⟨rfl, rfl, rfl⟩

/-- Witness for C8 on a concrete scan of one document. -/
theorem claim_C8_witness :
    cfg0.googleDriveFolderId = some "folder-1" ∧
    ("folder-1" : String) ≠ "" ∧
    okEnv.listFolderFiles "folder-1" = .ok [wMeta] ∧
    ((∃ s st', scanFolder cfg0 okEnv sSt = .ok (s, st') ∧
      ∀ f ∈ [wMeta], CallEvent.storeGet f.id ∈ st'.calls) ∧
    (∀ (acc : ScanAcc) (f : DriveFileMetadata) (rest : List DriveFileMetadata),
      (f :: rest).foldl (scanStep cfg0 okEnv) acc
        = rest.foldl (scanStep cfg0 okEnv) (scanStep cfg0 okEnv acc f)) ∧
    (∀ (acc : ScanAcc) (f : DriveFileMetadata) (e : String) (stz : St),
      (match acc.st.store f.id with
        | some r => r.status == ProcessingStatus.succeeded && !hasMetadataChanged r f
        | none => false) = false →
      processFile cfg0 okEnv (acc.st.logCall (.storeGet f.id)) f.id false (some f) 10
        = ⟨.error e, stz⟩ →
      (scanStep cfg0 okEnv acc f).errors = acc.errors + 1 ∧
      (scanStep cfg0 okEnv acc f).processed = acc.processed ∧
      (scanStep cfg0 okEnv acc f).skipped = acc.skipped)) :=
  ⟨rfl, by decide, rfl,
    claim_C8_scan_partial_failure_isolation cfg0 okEnv sSt "folder-1" [wMeta]
      rfl (by decide) rfl⟩

/-- C10: every listed document bumps exactly one of the three counters, so a
scan over `N` listed documents returns counters with
`processed + skipped + errors = N`. -/
theorem claim_C10_scan_counter_partition
    (cfg : AppConfig) (env : Env) (st : St) (folderId : String)
    (files : List DriveFileMetadata)
    (hcfg : cfg.googleDriveFolderId = some folderId)
    (hfid : folderId ≠ "")
    (hlist : env.listFolderFiles folderId = .ok files) :
    ∃ s st', scanFolder cfg env st = .ok (s, st') ∧
      s.processed + s.skipped + s.errors = files.length ∧
      (∀ (acc : ScanAcc) (f : DriveFileMetadata),
        ((scanStep cfg env acc f).processed = acc.processed + 1 ∧
          (scanStep cfg env acc f).skipped = acc.skipped ∧
          (scanStep cfg env acc f).errors = acc.errors) ∨
        ((scanStep cfg env acc f).processed = acc.processed ∧
          (scanStep cfg env acc f).skipped = acc.skipped + 1 ∧
          (scanStep cfg env acc f).errors = acc.errors) ∨
        ((scanStep cfg env acc f).processed = acc.processed ∧
          (scanStep cfg env acc f).skipped = acc.skipped ∧
          (scanStep cfg env acc f).errors = acc.errors + 1)) := by
  have hsf : scanFolder cfg env st = .ok
      (⟨(files.foldl (scanStep cfg env)
            ⟨0, 0, 0, st.logCall (.listFiles folderId)⟩).processed,
        (files.foldl (scanStep cfg env)
            ⟨0, 0, 0, st.logCall (.listFiles folderId)⟩).skipped,
        (files.foldl (scanStep cfg env)
            ⟨0, 0, 0, st.logCall (.listFiles folderId)⟩).errors⟩,
       (files.foldl (scanStep cfg env)
            ⟨0, 0, 0, st.logCall (.listFiles folderId)⟩).st) := by
    simp [scanFolder, hcfg, hfid, hlist]
  refine ⟨_, _, hsf, ?_, fun acc f => scanStep_trichotomy cfg env acc f⟩
  simpa using scanLoop_counts cfg env files ⟨0, 0, 0, st.logCall (.listFiles folderId)⟩

/-- Witness for C10 on a concrete scan of one document. -/
theorem claim_C10_witness :
    cfg0.googleDriveFolderId = some "folder-1" ∧
    ("folder-1" : String) ≠ "" ∧
    okEnv.listFolderFiles "folder-1" = .ok [wMeta] ∧
    (∃ s st', scanFolder cfg0 okEnv nmSt = .ok (s, st') ∧
      s.processed + s.skipped + s.errors = ([wMeta] : List DriveFileMetadata).length ∧
      (∀ (acc : ScanAcc) (f : DriveFileMetadata),
        ((scanStep cfg0 okEnv acc f).processed = acc.processed + 1 ∧
          (scanStep cfg0 okEnv acc f).skipped = acc.skipped ∧
          (scanStep cfg0 okEnv acc f).errors = acc.errors) ∨
        ((scanStep cfg0 okEnv acc f).processed = acc.processed ∧
          (scanStep cfg0 okEnv acc f).skipped = acc.skipped + 1 ∧
          (scanStep cfg0 okEnv acc f).errors = acc.errors) ∨
        ((scanStep cfg0 okEnv acc f).processed = acc.processed ∧
          (scanStep cfg0 okEnv acc f).skipped = acc.skipped ∧
          (scanStep cfg0 okEnv acc f).errors = acc.errors + 1))) :=
  ⟨rfl, by decide, rfl,
    claim_C10_scan_counter_partition cfg0 okEnv nmSt "folder-1" [wMeta]
      rfl (by decide) rfl⟩

end MeetQuiz
